import Mathlib

/-!
Verification of the zapret-ui orchestration core (service.go) against its
natural-language specification.  The Go code is shallowly embedded: strings
are lists of characters, the persisted `Config` is an explicit record, and
all OS / network effects (HTTP probes, `ReadDir` listings, `tasklist`
queries, process launches, config writes) are supplied by an explicit
environment record, so every operation is a pure function from an
environment and a service state to a result and a new service state.
-/

set_option autoImplicit false

namespace ZapretUI

/-- Strings are modelled as lists of characters (Go iterates byte-wise over
UTF-8; character-wise iteration agrees on all inputs relevant here, and
UTF-8 byte order coincides with code-point order). -/
abbrev Str := List Char

/-- Embed a Lean string literal. -/
def str (s : String) : Str := s.data

/-- The white-space set of Go `strings.TrimSpace` (ASCII part; the Unicode
additions play no role in the report format). -/
def goIsSpace (c : Char) : Bool :=
  c = ' ' || c = '\t' || c = '\n' || c = '\x0b' || c = '\x0c' || c = '\r'

/-- Go `strings.TrimSpace`. -/
def goTrim (s : Str) : Str :=
  ((s.dropWhile goIsSpace).reverse.dropWhile goIsSpace).reverse

/-- Go `strings.Split(s, "\n")`. -/
def splitLines (s : Str) : List Str :=
  match s with
  | [] => [[]]
  | c :: cs =>
    let rest := splitLines cs
    if c = '\n' then [] :: rest
    else
      match rest with
      | [] => [[c]]
      | l :: ls => (c :: l) :: ls

/-- Numeric value of a decimal digit run. -/
def digitsToNat (s : Str) : Nat := s.foldl (fun n c => 10 * n + (c.toNat - 48)) 0

def maxInt64 : Int := 2 ^ 63 - 1

def minInt64 : Int := -(2 ^ 63)

/-- Go `atoi` helper from service.go: `n, _ := strconv.Atoi(s); return n`.
`strconv.Atoi` parses an optional sign followed by decimal digits; on a
syntax error it yields 0, and on overflow of the 64-bit `int` it yields the
clamped bound (the wrapper discards the error either way). -/
def goAtoi (s : Str) : Int :=
  let signed : Bool × Str :=
    match s with
    | '+' :: rest => (false, rest)
    | '-' :: rest => (true, rest)
    | _ => (false, s)
  let neg := signed.1
  let ds := signed.2
  if ds = [] || ds.any (fun c => !c.isDigit) then 0
  else if neg then max (-(Int.ofNat (digitsToNat ds))) minInt64
  else min (Int.ofNat (digitsToNat ds)) maxInt64

/-- Drop a literal from the front of `s`, or fail. -/
def stripLit (lit s : Str) : Option Str :=
  if lit.isPrefixOf s then some (s.drop lit.length) else none

/-- Match the regex fragment `<lit>(\d+)`: the literal followed by a maximal
non-empty digit run (`\d+` is greedy and every following literal in the two
report regexes starts with a non-digit, so maximal munch is exact).
Returns the captured digit run and the remaining input. -/
def numField (lit : Str) (s : Str) : Option (Str × Str) :=
  match stripLit lit s with
  | none => none
  | some rest =>
    let ds := rest.takeWhile Char.isDigit
    if ds = [] then none else some (ds, rest.drop ds.length)

/-- Match the tail of the standard-form regex
`" : HTTP OK: (\d+), ERR: (\d+), UNSUP: (\d+), Ping OK: (\d+), Fail: (\d+)"`
(unanchored at the end, exactly as in the source). -/
def matchStdAt (post : Str) : Option (Str × Str × Str × Str × Str) := do
  let (d1, r1) ← numField (str " : HTTP OK: ") post
  let (d2, r2) ← numField (str ", ERR: ") r1
  let (d3, r3) ← numField (str ", UNSUP: ") r2
  let (d4, r4) ← numField (str ", Ping OK: ") r3
  let (d5, _) ← numField (str ", Fail: ") r4
  pure (d1, d2, d3, d4, d5)

/-- Match the tail of the DPI-summary regex
`" : OK: (\d+), FAIL: (\d+), UNSUP: (\d+), BLOCKED: (\d+)"`. -/
def matchDpiAt (post : Str) : Option (Str × Str × Str × Str) := do
  let (d1, r1) ← numField (str " : OK: ") post
  let (d2, r2) ← numField (str ", FAIL: ") r1
  let (d3, r3) ← numField (str ", UNSUP: ") r2
  let (d4, _) ← numField (str ", BLOCKED: ") r3
  pure (d1, d2, d3, d4)

/-- All decompositions `line = pre ++ post`, shortest `pre` first. -/
def splitsAsc (l : Str) : List (Str × Str) :=
  match l with
  | [] => [([], [])]
  | c :: cs => ([], c :: cs) :: (splitsAsc cs).map (fun p => (c :: p.1, p.2))

/-- `reStd.FindStringSubmatch`: the regex is anchored with `^` and the
leading `(.*)` is greedy, so the name capture is the longest prefix whose
remainder matches the literal tail.  The Go code then trims the capture. -/
def matchStd (line : Str) : Option (Str × Str × Str × Str × Str × Str) :=
  (splitsAsc line).reverse.findSome? fun p =>
    (matchStdAt p.2).map fun ds => (goTrim p.1, ds)

/-- `reDpi.FindStringSubmatch`, as `matchStd`. -/
def matchDpi (line : Str) : Option (Str × Str × Str × Str × Str) :=
  (splitsAsc line).reverse.findSome? fun p =>
    (matchDpiAt p.2).map fun ds => (goTrim p.1, ds)

/-- `TestResult` from service.go.  Times are abstract ticks. -/
structure TestResult where
  name : Str
  httpOk : Int
  httpErr : Int
  httpUnsup : Int
  pingOk : Int
  pingFail : Int
  fail : Int
  blocked : Int
  status : Str
  lastTestedAt : Nat
deriving DecidableEq

/-- The Go zero value of `TestResult`. -/
def zeroResult : TestResult :=
  { name := [], httpOk := 0, httpErr := 0, httpUnsup := 0, pingOk := 0
    pingFail := 0, fail := 0, blocked := 0, status := [], lastTestedAt := 0 }

/-- The `TestResult` built from a standard-form line: counters from the five
captures, then `status = "ok"` iff `HTTP_ERR == 0 && PingFail == 0`. -/
def stdResult (name d1 d2 d3 d4 d5 : Str) : TestResult :=
  let r : TestResult :=
    { zeroResult with
      name := name, httpOk := goAtoi d1, httpErr := goAtoi d2
      httpUnsup := goAtoi d3, pingOk := goAtoi d4, pingFail := goAtoi d5 }
  { r with status := if r.httpErr = 0 ∧ r.pingFail = 0 then str "ok" else str "fail" }

/-- The `TestResult` built from a DPI-summary line: counters from the four
captures, then `status = "ok"` iff `Fail == 0 && Blocked == 0`. -/
def dpiResult (name d1 d2 d3 d4 : Str) : TestResult :=
  let r : TestResult :=
    { zeroResult with
      name := name, httpOk := goAtoi d1, fail := goAtoi d2
      httpUnsup := goAtoi d3, blocked := goAtoi d4 }
  { r with status := if r.fail = 0 ∧ r.blocked = 0 then str "ok" else str "fail" }

/-- The Go `map[string]TestResult`, as an association list with distinct
keys maintained by `upsert` (map iteration order is irrelevant to every
claim considered here). -/
abbrev ResultMap := List (Str × TestResult)

/-- Map write `results[name] = res` (replace or append). -/
def upsert (k : Str) (v : TestResult) : ResultMap → ResultMap
  | [] => [(k, v)]
  | e :: rest => if e.1 = k then (k, v) :: rest else e :: upsert k v rest

/-- Map read. -/
def lookupR (k : Str) : ResultMap → Option TestResult
  | [] => none
  | e :: rest => if e.1 = k then some e.2 else lookupR k rest

/-- `parsedResults` from service.go. -/
structure ParsedResults where
  results : ResultMap
  best : Str
deriving DecidableEq

/-- Accumulator of the line loop in `parseAnalytics`. -/
structure ParseAcc where
  results : ResultMap
  best : Str
deriving DecidableEq

/-- One iteration of the line loop of `parseAnalytics`: trim, skip the
section marker, consume `Best strategy:` lines, skip blanks, then try the
standard regex and the DPI regex in that order. -/
def processLine (acc : ParseAcc) (raw : Str) : ParseAcc :=
  if goTrim raw = str "=== ANALYTICS ===" then acc
  else if (str "Best strategy:").isPrefixOf (goTrim raw) then
    { acc with best := goTrim ((goTrim raw).drop (str "Best strategy:").length) }
  else if goTrim raw = [] then acc
  else
    match matchStd (goTrim raw) with
    | some (name, d1, d2, d3, d4, d5) =>
      { acc with results := upsert name (stdResult name d1 d2 d3 d4 d5) acc.results }
    | none =>
      match matchDpi (goTrim raw) with
      | some (name, d1, d2, d3, d4) =>
        { acc with results := upsert name (dpiResult name d1 d2 d3 d4) acc.results }
      | none => acc

/-- The accumulator left by the line loop of `parseAnalytics`. -/
def parseAnalyticsAcc (content : Str) : ParseAcc :=
  (splitLines content).foldl processLine { results := [], best := [] }

/-- `parseAnalytics` from service.go: fold the line loop over the input
split on newlines; error `"no analytics parsed"` when no result line was
recognized. -/
def parseAnalytics (content : Str) : Except Str ParsedResults :=
  if (parseAnalyticsAcc content).results.length = 0 then .error (str "no analytics parsed")
  else .ok { results := (parseAnalyticsAcc content).results, best := (parseAnalyticsAcc content).best }

/-- The status invariant every stored result satisfies: `"ok"` exactly when
all failure counters are zero (a standard-form result always has
`fail = blocked = 0`, a DPI-form result always has
`httpErr = pingFail = 0`, so this subsumes both per-form conditions). -/
def statusInv (r : TestResult) : Prop :=
  r.status = str "ok" ↔ (r.httpErr = 0 ∧ r.pingFail = 0 ∧ r.fail = 0 ∧ r.blocked = 0)

theorem stdResult_status_iff (name d1 d2 d3 d4 d5 : Str) :
    (stdResult name d1 d2 d3 d4 d5).status = str "ok" ↔
      (stdResult name d1 d2 d3 d4 d5).httpErr = 0 ∧ (stdResult name d1 d2 d3 d4 d5).pingFail = 0 := by
  have hs : (stdResult name d1 d2 d3 d4 d5).status
      = if goAtoi d2 = 0 ∧ goAtoi d5 = 0 then str "ok" else str "fail" := rfl
  have he : (stdResult name d1 d2 d3 d4 d5).httpErr = goAtoi d2 := rfl
  have hp : (stdResult name d1 d2 d3 d4 d5).pingFail = goAtoi d5 := rfl
  rw [hs, he, hp]
  rcases Decidable.em (goAtoi d2 = 0 ∧ goAtoi d5 = 0) with h | h
  · rw [if_pos h]
    exact ⟨fun _ => h, fun _ => rfl⟩
  · rw [if_neg h]
    exact ⟨fun hfo => absurd hfo (by decide), fun hc => absurd hc h⟩

theorem dpiResult_status_iff (name d1 d2 d3 d4 : Str) :
    (dpiResult name d1 d2 d3 d4).status = str "ok" ↔
      (dpiResult name d1 d2 d3 d4).fail = 0 ∧ (dpiResult name d1 d2 d3 d4).blocked = 0 := by
  have hs : (dpiResult name d1 d2 d3 d4).status
      = if goAtoi d2 = 0 ∧ goAtoi d4 = 0 then str "ok" else str "fail" := rfl
  have hf : (dpiResult name d1 d2 d3 d4).fail = goAtoi d2 := rfl
  have hb : (dpiResult name d1 d2 d3 d4).blocked = goAtoi d4 := rfl
  rw [hs, hf, hb]
  rcases Decidable.em (goAtoi d2 = 0 ∧ goAtoi d4 = 0) with h | h
  · rw [if_pos h]
    exact ⟨fun _ => h, fun _ => rfl⟩
  · rw [if_neg h]
    exact ⟨fun hfo => absurd hfo (by decide), fun hc => absurd hc h⟩

theorem stdResult_statusInv (name d1 d2 d3 d4 d5 : Str) :
    statusInv (stdResult name d1 d2 d3 d4 d5) := by
  have hf : (stdResult name d1 d2 d3 d4 d5).fail = 0 := rfl
  have hb : (stdResult name d1 d2 d3 d4 d5).blocked = 0 := rfl
  unfold statusInv
  rw [stdResult_status_iff, hf, hb]
  constructor
  · intro h; exact ⟨h.1, h.2, rfl, rfl⟩
  · intro h; exact ⟨h.1, h.2.1⟩

theorem dpiResult_statusInv (name d1 d2 d3 d4 : Str) :
    statusInv (dpiResult name d1 d2 d3 d4) := by
  have he : (dpiResult name d1 d2 d3 d4).httpErr = 0 := rfl
  have hp : (dpiResult name d1 d2 d3 d4).pingFail = 0 := rfl
  unfold statusInv
  rw [dpiResult_status_iff, he, hp]
  constructor
  · intro h; exact ⟨rfl, rfl, h.1, h.2⟩
  · intro h; exact ⟨h.2.2.1, h.2.2.2⟩

theorem lookupR_cons (n : Str) (e : Str × TestResult) (rest : ResultMap) :
    lookupR n (e :: rest) = if e.1 = n then some e.2 else lookupR n rest := rfl

theorem upsert_cons (k : Str) (v : TestResult) (e : Str × TestResult) (rest : ResultMap) :
    upsert k v (e :: rest) = if e.1 = k then (k, v) :: rest else e :: upsert k v rest := rfl

theorem lookupR_upsert (k n : Str) (v : TestResult) (m : ResultMap) :
    lookupR n (upsert k v m) = if n = k then some v else lookupR n m := by
  induction m with
  | nil =>
    show (if k = n then some v else none) = if n = k then some v else lookupR n []
    by_cases h : n = k
    · rw [if_pos h.symm, if_pos h]
    · rw [if_neg (fun hk => h hk.symm), if_neg h]; rfl
  | cons e rest ih =>
    by_cases he : e.1 = k
    · rw [upsert_cons, if_pos he, lookupR_cons, lookupR_cons]
      by_cases hn : n = k
      · rw [if_pos hn.symm, if_pos hn]
      · rw [if_neg (fun hk => hn hk.symm), if_neg hn,
          if_neg (fun hh : e.1 = n => hn ((hh.symm.trans he)))]
    · rw [upsert_cons, if_neg he, lookupR_cons, lookupR_cons]
      by_cases hn : e.1 = n
      · have hnk : ¬ n = k := fun h2 => he (hn.trans h2)
        rw [if_pos hn, if_pos hn, if_neg hnk]
      · rw [if_neg hn, if_neg hn, ih]

theorem processLine_statusInv (acc : ParseAcc) (raw : Str)
    (h : ∀ n r, lookupR n acc.results = some r → statusInv r) :
    ∀ n r, lookupR n (processLine acc raw).results = some r → statusInv r := by
  intro n r hr
  unfold processLine at hr
  split at hr
  · exact h n r hr
  · split at hr
    · exact h n r hr
    · split at hr
      · exact h n r hr
      · split at hr
        · rename_i name d1 d2 d3 d4 d5 _
          simp only [lookupR_upsert] at hr
          split at hr
          · cases hr; exact stdResult_statusInv name d1 d2 d3 d4 d5
          · exact h n r hr
        · split at hr
          · rename_i name d1 d2 d3 d4 _
            simp only [lookupR_upsert] at hr
            split at hr
            · cases hr; exact dpiResult_statusInv name d1 d2 d3 d4
            · exact h n r hr
          · exact h n r hr

theorem foldl_processLine_statusInv (lines : List Str) (acc : ParseAcc)
    (h : ∀ n r, lookupR n acc.results = some r → statusInv r) :
    ∀ n r, lookupR n (lines.foldl processLine acc).results = some r → statusInv r := by
  induction lines generalizing acc with
  | nil => exact h
  | cons l ls ih => exact ih (processLine acc l) (processLine_statusInv acc l h)

/-- C1: for every parsed report line the stored status is a deterministic
function of the counters: a standard-form line yields `status = "ok"` iff
`httpErr = 0 ∧ pingFail = 0`, a DPI-summary line yields `status = "ok"` iff
`fail = 0 ∧ blocked = 0`; consequently every result stored by
`parseAnalytics` satisfies the combined invariant `statusInv` (its status
is `"ok"` exactly when all of its failure counters are zero, the counters
of the other form being zero by construction). -/
theorem claim_C1 :
    (∀ name d1 d2 d3 d4 d5 : Str,
        ((stdResult name d1 d2 d3 d4 d5).status = str "ok" ↔
          (stdResult name d1 d2 d3 d4 d5).httpErr = 0 ∧
            (stdResult name d1 d2 d3 d4 d5).pingFail = 0))
  ∧ (∀ name d1 d2 d3 d4 : Str,
        ((dpiResult name d1 d2 d3 d4).status = str "ok" ↔
          (dpiResult name d1 d2 d3 d4).fail = 0 ∧
            (dpiResult name d1 d2 d3 d4).blocked = 0))
  ∧ (∀ (content : Str) (pr : ParsedResults) (n : Str) (r : TestResult),
        parseAnalytics content = .ok pr → lookupR n pr.results = some r → statusInv r) := by
  refine ⟨stdResult_status_iff, dpiResult_status_iff, ?_⟩
  intro content pr n r hok hlk
  unfold parseAnalytics at hok
  split at hok
  · exact absurd hok (by simp)
  · have hpr : pr.results = (parseAnalyticsAcc content).results := by
      cases hok; rfl
    rw [hpr] at hlk
    exact foldl_processLine_statusInv (splitLines content) { results := [], best := [] }
      (fun n' r' hr' => by simp [lookupR] at hr') n r hlk

def demoContent : Str :=
  str "nginx : HTTP OK: 5, ERR: 0, UNSUP: 0, Ping OK: 5, Fail: 0\nBest strategy: nginx"

def demoRes : TestResult :=
  stdResult (str "nginx") (str "5") (str "0") (str "0") (str "5") (str "0")

def demoParsed : ParsedResults :=
  { results := [(str "nginx", demoRes)], best := str "nginx" }

/-- Witness for C1 on the spec's own scenario line. -/
theorem claim_C1_witness :
    parseAnalytics demoContent = .ok demoParsed
    ∧ lookupR (str "nginx") demoParsed.results = some demoRes
    ∧ statusInv demoRes :=
  ⟨rfl, rfl, claim_C1.2.2 demoContent demoParsed (str "nginx") demoRes rfl rfl⟩

theorem processLine_results_of_nomatch (acc : ParseAcc) (raw : Str)
    (h1 : matchStd (goTrim raw) = none) (h2 : matchDpi (goTrim raw) = none) :
    (processLine acc raw).results = acc.results := by
  unfold processLine
  split
  · rfl
  · split
    · rfl
    · split
      · rfl
      · split
        · rename_i heq; rw [h1] at heq; exact absurd heq (by simp)
        · split
          · rename_i heq; rw [h2] at heq; exact absurd heq (by simp)
          · rfl

theorem foldl_results_of_nomatch (lines : List Str) (acc : ParseAcc)
    (h : ∀ raw ∈ lines, matchStd (goTrim raw) = none ∧ matchDpi (goTrim raw) = none) :
    (lines.foldl processLine acc).results = acc.results := by
  induction lines generalizing acc with
  | nil => rfl
  | cons l ls ih =>
    rw [List.foldl_cons, ih (processLine acc l) (fun raw hraw => h raw (List.mem_cons_of_mem _ hraw))]
    exact processLine_results_of_nomatch acc l
      (h l (List.mem_cons_self _ _)).1 (h l (List.mem_cons_self _ _)).2

/-- C2: on any input in which no line is recognized by either of the two
line grammars (after trimming), `parseAnalytics` fails with the
`"no analytics parsed"` error and returns no result map. -/
theorem claim_C2 (content : Str)
    (h : ∀ raw ∈ splitLines content,
        matchStd (goTrim raw) = none ∧ matchDpi (goTrim raw) = none) :
    parseAnalytics content = .error (str "no analytics parsed") := by
  unfold parseAnalytics parseAnalyticsAcc
  rw [foldl_results_of_nomatch (splitLines content) { results := [], best := [] } h]
  rfl

/-- Witness for C2: input holding only a greeting, a `Best strategy:` line
and a blank line is rejected. -/
theorem claim_C2_witness :
    parseAnalytics (str "hello\nBest strategy: x\n") = .error (str "no analytics parsed") :=
  claim_C2 (str "hello\nBest strategy: x\n") (by
    have hl : splitLines (str "hello\nBest strategy: x\n")
        = [str "hello", str "Best strategy: x", str ""] := rfl
    intro raw hraw
    rw [hl] at hraw
    fin_cases hraw <;> exact ⟨rfl, rfl⟩)

/-- `RunningInfo` from service.go. -/
structure RunningInfo where
  file : Str
  pid : Int
  startedAt : Nat
deriving DecidableEq

/-- `Config` from service.go (the persisted JSON document; the opaque
`Meta` map is omitted — nothing reads or writes it). -/
structure Config where
  version : Str
  lastStrategy : Str
  lastTestAt : Nat
  testResults : ResultMap
  bestStrategy : Str
  running : Option RunningInfo
  testInProgress : Bool
deriving DecidableEq

/-- A `ReadDir` entry together with the data the code may ask of it
(`ModTime` for the result files, the bytes for `os.ReadFile`). -/
structure FileEntry where
  name : Str
  isDir : Bool
  modTime : Nat
  content : Str
deriving DecidableEq

/-- An entry of the downloaded zip archive. -/
structure ZipEntry where
  name : Str
  isDir : Bool
deriving DecidableEq

/-- Outcome of the HTTP GET of the archive for a tag, followed by
`unzipBuffer`.  `extractFail` distinguishes whether the partial extraction
already created the target directory. -/
inductive DlOutcome
  | netFail
  | httpFail
  | bodyFail
  | zipFail
  | extractFail (dirCreated : Bool)
  | ok (entries : List ZipEntry)
deriving DecidableEq

/-- The world outside the service: network responses, directory listings,
process-table queries and process-launch outcomes.  It is read-only during
one operation (the service only observes it). -/
structure Env where
  latestTagR : Except Str Str
  download : Str → DlOutcome
  resultsDirR : Option (List FileEntry)
  releaseDirR : Option (List FileEntry)
  pidAlive : Int → Bool
  saveOk : Bool
  fileExistsR : Str → Bool
  isAbsR : Str → Bool
  launchR : Str → Except Str Str
  now : Nat

/-- The mutable service state: the in-memory `Config`, the config document
on disk, the set of unpacked release directories, and a counter of download
attempts (the effect trace used to state "no network work was done"). -/
structure Svc where
  releasesDir : Str
  config : Config
  disk : Config
  releaseDirs : List Str
  downloads : Nat

/-- `Strategy` from service.go. -/
structure Strategy where
  name : Str
  file : Str
  result : TestResult
  best : Bool
deriving DecidableEq

/-- The `State` DTO from service.go (`LastTestLog` is never assigned by the
code and is omitted). -/
structure StateDTO where
  config : Config
  strategies : List Strategy
  latestTag : Str
  hasUpdate : Bool
  currentPath : Str
  running : Option RunningInfo
deriving DecidableEq

/-- `filepath.Join` of one extra component on Windows (the path-cleaning
performed by Go's `Join` does not affect any path compared here). -/
def pathJoin (a b : Str) : Str := a ++ '\\' :: b

/-- `saveConfig` with the error discarded (`_ = s.saveConfig()`): on write
success the disk document becomes the in-memory one, otherwise nothing
changes. -/
def goSave (env : Env) (svc : Svc) : Svc :=
  if env.saveOk then { svc with disk := svc.config } else svc

/-- `saveConfig` where the caller propagates the error (`CheckAndUpdate`). -/
def goSaveE (env : Env) (svc : Svc) : Except Str Svc :=
  if env.saveOk then .ok { svc with disk := svc.config } else .error (str "write failed")

/-- `currentReleasePath`: empty when no version is recorded, otherwise
`releasesDir/<version>`. -/
def currentReleasePath (svc : Svc) : Str :=
  if svc.config.version = [] then [] else pathJoin svc.releasesDir svc.config.version

/-- `isPIDRunning`: false for non-positive pids, otherwise a `tasklist`
query of the process table. -/
def isPIDRunning (env : Env) (pid : Int) : Bool :=
  if pid ≤ 0 then false else env.pidAlive pid

/-- The latest tag as `State` observes it: `latest, _ := s.latestTag()`
leaves the empty string when the probe fails. -/
def tagOf (env : Env) : Str :=
  match env.latestTagR with
  | .ok t => t
  | .error _ => []

/-- Go `strings.ToLower` (ASCII case mapping; the Unicode part plays no
role for the `general*`/`service*`/`.bat` conventions). -/
def lowerStr (s : Str) : Str := s.map Char.toLower

/-- Go `<` on strings: byte-wise lexicographic comparison, which for UTF-8
agrees with code-point-wise comparison. -/
def strLt : Str → Str → Bool
  | _, [] => false
  | [], _ :: _ => true
  | a :: as, b :: bs =>
    if a.toNat < b.toNat then true
    else if b.toNat < a.toNat then false
    else strLt as bs

/-- Insertion step of the sort used to model `sort.Slice`. -/
def insertByLt {α : Type} (lt : α → α → Bool) (x : α) : List α → List α
  | [] => [x]
  | y :: ys => if lt x y then x :: y :: ys else y :: insertByLt lt x ys

/-- `sort.Slice(res, less)`: since directory entry names are distinct, the
sorted permutation is unique, so insertion sort models it exactly. -/
def sortByLt {α : Type} (lt : α → α → Bool) (l : List α) : List α :=
  l.foldr (insertByLt lt) []

/-- The filename filter of `listStrategies`: skip directories and
`service*` names, keep names that (case-insensitively) end in `.bat` and
start with `general`. -/
def strategyOfEntry (current : Str) (e : FileEntry) : Option Strategy :=
  if e.isDir || (str "service").isPrefixOf (lowerStr e.name) then none
  else if (str ".bat").isSuffixOf (lowerStr e.name) && (str "general").isPrefixOf (lowerStr e.name) then
    some { name := e.name, file := pathJoin current e.name, result := zeroResult, best := false }
  else none

/-- Case split of `listStrategies` over the `ReadDir` outcome. -/
def listWith (current : Str) : Option (List FileEntry) → Except Str (List Strategy)
  | none => .error (str "readdir failed")
  | some entries =>
    .ok (sortByLt (fun a b => strLt a.name b.name) (entries.filterMap (strategyOfEntry current)))

/-- `listStrategies`: empty list (`nil, nil`) when no release is active,
an error when the directory cannot be listed, otherwise the filtered
entries sorted by name. -/
def listStrategies (env : Env) (svc : Svc) : Except Str (List Strategy) :=
  if currentReleasePath svc = [] then .ok []
  else listWith (currentReleasePath svc) env.releaseDirR

/-- The most-recently-modified regular file of the results directory
(`info.ModTime().After(latestTime)` with the zero time as the seed, so ties
keep the earlier entry). -/
def pickLatest (entries : List FileEntry) : Option FileEntry :=
  (entries.foldl
    (fun acc e =>
      if e.isDir then acc
      else if acc.2 < e.modTime then (some e, e.modTime) else acc)
    ((none : Option FileEntry), 0)).1

/-- Case split of `parseLatestResult` over the picked entry. -/
def plrPick : Option FileEntry → Except Str ParsedResults
  | none => .error (str "no test results found")
  | some e => parseAnalytics e.content

/-- Case split of `parseLatestResult` over the `ReadDir` outcome. -/
def plrEntries : Option (List FileEntry) → Except Str ParsedResults
  | none => .error (str "readdir failed")
  | some entries => plrPick (pickLatest entries)

/-- `parseLatestResult`: list the `utils/test results` directory, read the
most recently modified file, parse it. -/
def parseLatestResult (env : Env) : Except Str ParsedResults :=
  plrEntries env.resultsDirR

/-- Case split of the rehydration step of `State` over the parse outcome:
when the latest on-disk report parses to a non-empty result map, overwrite
the persisted results and best strategy and save (errors of both the parse
and the save are discarded). -/
def rehydrateWith (env : Env) (svc : Svc) : Except Str ParsedResults → Svc
  | .ok pr =>
    if 0 < pr.results.length then
      goSave env { svc with config :=
        { svc.config with testResults := pr.results, bestStrategy := pr.best } }
    else svc
  | .error _ => svc

/-- The rehydration step of `State`. -/
def rehydrate (env : Env) (svc : Svc) : Svc :=
  rehydrateWith env svc (parseLatestResult env)

/-- Case split of the stale-PID validation step of `State`: a tracked
process that is no longer alive is cleared and the config saved. -/
def clearWith (env : Env) (svc : Svc) : Option RunningInfo → Svc
  | some r =>
    if isPIDRunning env r.pid then svc
    else goSave env { svc with config := { svc.config with running := none } }
  | none => svc

/-- The stale-PID validation step of `State`. -/
def clearStaleRunning (env : Env) (svc : Svc) : Svc :=
  clearWith env svc svc.config.running

/-- Decoration of the strategy list inside `State`: attach the looked-up
test result and the best-strategy marker. -/
def decorate (cfg : Config) (st : Strategy) : Strategy :=
  let st' :=
    match lookupR st.name cfg.testResults with
    | some res => { st with result := res }
    | none => st
  if cfg.bestStrategy ≠ [] ∧ cfg.bestStrategy = st'.name then { st' with best := true } else st'

/-- `State()` from service.go: rehydrate results from disk and validate the
tracked pid (both only when a release path is set), then assemble the DTO.
Returns the DTO and the service state it left behind. -/
def stateRead (env : Env) (svc : Svc) : StateDTO × Svc :=
  stateAssemble env
    (if currentReleasePath svc = [] then svc else clearStaleRunning env (rehydrate env svc))
where
  stateAssemble (env : Env) (svc : Svc) : StateDTO × Svc :=
    ({ config := svc.config
       strategies :=
         (match listStrategies env svc with
          | .ok l => l
          | .error _ => []).map (decorate svc.config)
       latestTag := tagOf env
       hasUpdate := decide (tagOf env ≠ [] ∧ tagOf env ≠ svc.config.version)
       currentPath := currentReleasePath svc
       running := svc.config.running }, svc)

/-- Whether `unzipBuffer` created the destination directory: each archive
entry triggers an `os.MkdirAll` at or below the destination, and nothing
else creates it, so the directory exists exactly when the archive holds at
least one entry. -/
def unzipCreatedDir (entries : List ZipEntry) : Bool := !entries.isEmpty

/-- Case split of `downloadAndUnpack` over the download outcome, applied
to the state in which the HTTP GET has already been counted: on success or
on a partial extraction that created the target directory the tag is
recorded as an existing release directory. -/
def dlApply (tag : Str) (svc : Svc) : DlOutcome → Except Str Unit × Svc
  | .netFail => (.error (str "request failed"), svc)
  | .httpFail => (.error (str "download failed"), svc)
  | .bodyFail => (.error (str "read failed"), svc)
  | .zipFail => (.error (str "bad archive"), svc)
  | .extractFail dirCreated =>
    (.error (str "extract failed"),
      if dirCreated then { svc with releaseDirs := tag :: svc.releaseDirs } else svc)
  | .ok entries =>
    (.ok (),
      if unzipCreatedDir entries then { svc with releaseDirs := tag :: svc.releaseDirs } else svc)

/-- `downloadAndUnpack`: reject the empty tag; no-op success when the tag
directory already exists; otherwise perform the HTTP GET (counted in
`downloads`) and unpack. -/
def downloadAndUnpack (env : Env) (tag : Str) (svc : Svc) : Except Str Unit × Svc :=
  if tag = [] then (.error (str "tag empty"), svc)
  else if tag ∈ svc.releaseDirs then (.ok (), svc)
  else dlApply tag { svc with downloads := svc.downloads + 1 } (env.download tag)

/-- The state `CheckAndUpdate` builds after a successful unpack: the new
version recorded in memory. -/
def installVersion (latest : Str) (svc' : Svc) : Svc :=
  { svc' with config := { svc'.config with version := latest } }

/-- Case split of `CheckAndUpdate` over the save outcome (this is the one
save whose error the source propagates). -/
def cauSaved (env : Env) (bad : Svc) : Except Str Svc → Except Str StateDTO × Svc
  | .error e => (.error e, bad)
  | .ok svc'' => ((stateRead env svc'').1 |> .ok, (stateRead env svc'').2)

/-- Case split of `CheckAndUpdate` over the unpack outcome. -/
def cauAfterDl (env : Env) (latest : Str) (svc' : Svc) : Except Str Unit → Except Str StateDTO × Svc
  | .error e => (.error e, svc')
  | .ok _ => cauSaved env (installVersion latest svc') (goSaveE env (installVersion latest svc'))

/-- Case split of `CheckAndUpdate` over the tag-probe outcome: when the
resolved tag equals the recorded version and is non-empty, just return a
fresh snapshot; otherwise download, unpack, record the new version, save
and return a fresh snapshot. -/
def cauWith (env : Env) (svc : Svc) : Except Str Str → Except Str StateDTO × Svc
  | .error e => (.error e, svc)
  | .ok latest =>
    if svc.config.version = latest ∧ latest ≠ [] then
      ((stateRead env svc).1 |> .ok, (stateRead env svc).2)
    else
      cauAfterDl env latest (downloadAndUnpack env latest svc).2 (downloadAndUnpack env latest svc).1

/-- `CheckAndUpdate` from service.go. -/
def checkAndUpdate (env : Env) (svc : Svc) : Except Str StateDTO × Svc :=
  cauWith env svc env.latestTagR

/-- Case split of `StopRunning` over the tracked entry. -/
def stopWith (env : Env) (svc : Svc) : Option RunningInfo → Except Str Unit × Svc
  | some _ => (.ok (), goSave env { svc with config := { svc.config with running := none } })
  | none => (.ok (), svc)

/-- `StopRunning`: three best-effort terminations of every `winws.exe`
instance (taskkill, a PowerShell Stop-Process loop, wmic) whose errors are
all discarded and which do not touch the service state; then, when a
process is tracked, two further best-effort kills of the tracked pid
(their errors again discarded), after which the tracked entry is cleared
and the config saved.  The only fallible step the source propagates is the
initial config load, which this embedding models as total. -/
def stopRunning (env : Env) (svc : Svc) : Except Str Unit × Svc :=
  stopWith env svc svc.config.running

/-- Go `filepath.Base`: the last path component after trailing separators
are removed (corner cases like all-separator paths are irrelevant to every
claim). -/
def pathBase (p : Str) : Str :=
  if p = [] then str "."
  else
    if (p.reverse.dropWhile (fun c => c = '\\' || c = '/')).takeWhile
        (fun c => !(c = '\\' || c = '/')) = [] then str "\\"
    else ((p.reverse.dropWhile (fun c => c = '\\' || c = '/')).takeWhile
        (fun c => !(c = '\\' || c = '/'))).reverse

/-- The absolute path `RunStrategy` launches: `file` itself when absolute,
otherwise joined under the active release. -/
def resolvedLaunchPath (env : Env) (svc : Svc) (file : Str) : Str :=
  if env.isAbsR file then file else pathJoin (currentReleasePath svc) file

/-- `RunStrategy`: stop whatever is tracked, resolve the file inside the
active release, launch it through PowerShell `Start-Process` capturing the
printed pid; when the captured pid is positive a `RunningInfo` is persisted;
in every launched case `lastStrategy` is updated and a fresh snapshot
returned. -/
def runStrategy (env : Env) (file : Str) (svc : Svc) : Except Str StateDTO × Svc :=
  runAfterStop env file (stopRunning env svc).2
where
  runAfterStop (env : Env) (file : Str) (svc : Svc) : Except Str StateDTO × Svc :=
    if currentReleasePath svc = [] then (.error (str "no current release"), svc)
    else if !env.fileExistsR (resolvedLaunchPath env svc file) then
      (.error (str "stat failed"), svc)
    else
      runLaunched env (resolvedLaunchPath env svc file) svc
        (env.launchR (resolvedLaunchPath env svc file))
  runLaunched (env : Env) (full : Str) (svc : Svc) : Except Str Str → Except Str StateDTO × Svc
    | .error e => (.error e, svc)
    | .ok output => runRecord env full (goAtoi (goTrim output)) svc
  runRecord (env : Env) (full : Str) (pid : Int) (svc : Svc) : Except Str StateDTO × Svc :=
    ((stateRead env (runSaveLast env full (runSavePid env full pid svc))).1 |> .ok,
      (stateRead env (runSaveLast env full (runSavePid env full pid svc))).2)
  runSavePid (env : Env) (full : Str) (pid : Int) (svc : Svc) : Svc :=
    if 0 < pid then
      goSave env { svc with config := { svc.config with
        running := some { file := pathBase full, pid := pid, startedAt := env.now } } }
    else svc
  runSaveLast (env : Env) (full : Str) (svc : Svc) : Svc :=
    goSave env { svc with config := { svc.config with lastStrategy := pathBase full } }

theorem goSave_config (env : Env) (svc : Svc) : (goSave env svc).config = svc.config := by
  unfold goSave; split <;> rfl

theorem goSave_downloads (env : Env) (svc : Svc) : (goSave env svc).downloads = svc.downloads := by
  unfold goSave; split <;> rfl

theorem goSave_releaseDirs (env : Env) (svc : Svc) :
    (goSave env svc).releaseDirs = svc.releaseDirs := by
  unfold goSave; split <;> rfl

theorem goSave_releasesDir (env : Env) (svc : Svc) :
    (goSave env svc).releasesDir = svc.releasesDir := by
  unfold goSave; split <;> rfl

theorem goSave_disk (env : Env) (svc : Svc) (h : env.saveOk = true) :
    (goSave env svc).disk = svc.config := by
  unfold goSave; rw [if_pos h]

theorem rehydrate_frame (env : Env) (svc : Svc) :
    (rehydrate env svc).config.version = svc.config.version
    ∧ (rehydrate env svc).config.running = svc.config.running
    ∧ (rehydrate env svc).downloads = svc.downloads
    ∧ (rehydrate env svc).releaseDirs = svc.releaseDirs
    ∧ (rehydrate env svc).releasesDir = svc.releasesDir := by
  unfold rehydrate
  cases parseLatestResult env with
  | error e => exact ⟨rfl, rfl, rfl, rfl, rfl⟩
  | ok pr =>
    simp only [rehydrateWith]
    split
    · refine ⟨?_, ?_, ?_, ?_, ?_⟩
      · rw [goSave_config]
      · rw [goSave_config]
      · rw [goSave_downloads]
      · rw [goSave_releaseDirs]
      · rw [goSave_releasesDir]
    · exact ⟨rfl, rfl, rfl, rfl, rfl⟩

theorem clearStale_frame (env : Env) (svc : Svc) :
    (clearStaleRunning env svc).config.version = svc.config.version
    ∧ (clearStaleRunning env svc).config.testResults = svc.config.testResults
    ∧ (clearStaleRunning env svc).config.bestStrategy = svc.config.bestStrategy
    ∧ (clearStaleRunning env svc).downloads = svc.downloads
    ∧ (clearStaleRunning env svc).releaseDirs = svc.releaseDirs
    ∧ (clearStaleRunning env svc).releasesDir = svc.releasesDir := by
  unfold clearStaleRunning
  cases svc.config.running with
  | none => exact ⟨rfl, rfl, rfl, rfl, rfl, rfl⟩
  | some r =>
    simp only [clearWith]
    split
    · exact ⟨rfl, rfl, rfl, rfl, rfl, rfl⟩
    · refine ⟨?_, ?_, ?_, ?_, ?_, ?_⟩
      · rw [goSave_config]
      · rw [goSave_config]
      · rw [goSave_config]
      · rw [goSave_downloads]
      · rw [goSave_releaseDirs]
      · rw [goSave_releasesDir]

theorem stateRead_snd (env : Env) (svc : Svc) :
    (stateRead env svc).2 =
      if currentReleasePath svc = [] then svc
      else clearStaleRunning env (rehydrate env svc) := rfl

theorem stateRead_hasUpdate (env : Env) (svc : Svc) :
    (stateRead env svc).1.hasUpdate
      = decide (tagOf env ≠ [] ∧ tagOf env ≠ (stateRead env svc).2.config.version) := rfl

theorem stateRead_frame (env : Env) (svc : Svc) :
    (stateRead env svc).2.config.version = svc.config.version
    ∧ (stateRead env svc).2.downloads = svc.downloads
    ∧ (stateRead env svc).2.releaseDirs = svc.releaseDirs
    ∧ (stateRead env svc).2.releasesDir = svc.releasesDir := by
  rw [stateRead_snd]
  split
  · exact ⟨rfl, rfl, rfl, rfl⟩
  · exact ⟨(clearStale_frame env (rehydrate env svc)).1.trans (rehydrate_frame env svc).1,
      (clearStale_frame env (rehydrate env svc)).2.2.2.1.trans (rehydrate_frame env svc).2.2.1,
      (clearStale_frame env (rehydrate env svc)).2.2.2.2.1.trans (rehydrate_frame env svc).2.2.2.1,
      (clearStale_frame env (rehydrate env svc)).2.2.2.2.2.trans (rehydrate_frame env svc).2.2.2.2⟩

/-- C3: the snapshot's `hasUpdate` flag is true iff the resolved latest tag
is non-empty and differs from the persisted version, and `CheckAndUpdate`
with a non-empty latest tag equal to the persisted version performs no
download, no unpack and no version mutation — it only returns a fresh
state snapshot. -/
theorem claim_C3 (env : Env) (svc : Svc) :
    ((stateRead env svc).1.hasUpdate = true ↔
        (tagOf env ≠ [] ∧ tagOf env ≠ svc.config.version))
  ∧ (∀ t : Str, env.latestTagR = .ok t → t = svc.config.version → t ≠ [] →
      (checkAndUpdate env svc).2.downloads = svc.downloads
      ∧ (checkAndUpdate env svc).2.releaseDirs = svc.releaseDirs
      ∧ (checkAndUpdate env svc).2.config.version = svc.config.version
      ∧ (checkAndUpdate env svc).1 = .ok (stateRead env svc).1) := by
  constructor
  · rw [stateRead_hasUpdate, (stateRead_frame env svc).1]
    exact decide_eq_true_iff
  · intro t h1 h2 h3
    have hcu : checkAndUpdate env svc = ((stateRead env svc).1 |> .ok, (stateRead env svc).2) := by
      unfold checkAndUpdate
      rw [h1]
      simp only [cauWith]
      rw [if_pos ⟨h2.symm, h3⟩]
    rw [hcu]
    exact ⟨(stateRead_frame env svc).2.1, (stateRead_frame env svc).2.2.1,
      (stateRead_frame env svc).1, rfl⟩

/-- The base config of the default document. -/
def cfg0 : Config :=
  { version := [], lastStrategy := [], lastTestAt := 0, testResults := []
    bestStrategy := [], running := none, testInProgress := false }

/-- A quiescent environment for witnesses: every probe fails, nothing is
alive, saves succeed. -/
def env0 : Env :=
  { latestTagR := .error (str "probe failed"), download := fun _ => .netFail
    resultsDirR := none, releaseDirR := none, pidAlive := fun _ => false
    saveOk := true, fileExistsR := fun _ => false, isAbsR := fun _ => false
    launchR := fun _ => .error (str "launch failed"), now := 0 }

def env3 : Env := { env0 with latestTagR := .ok (str "v1") }

def svc3 : Svc :=
  { releasesDir := str "R", config := { cfg0 with version := str "v1" }
    disk := cfg0, releaseDirs := [str "v1"], downloads := 0 }

/-- Witness for C3: up-to-date service, the update check is a no-op. -/
theorem claim_C3_witness :
    (checkAndUpdate env3 svc3).2.downloads = svc3.downloads
    ∧ (checkAndUpdate env3 svc3).2.releaseDirs = svc3.releaseDirs
    ∧ (checkAndUpdate env3 svc3).2.config.version = svc3.config.version
    ∧ (checkAndUpdate env3 svc3).1 = .ok (stateRead env3 svc3).1 :=
  (claim_C3 env3 svc3).2 (str "v1") rfl rfl (by decide)

theorem downloadAndUnpack_config_disk (env : Env) (tag : Str) (svc : Svc) :
    (downloadAndUnpack env tag svc).2.config = svc.config
    ∧ (downloadAndUnpack env tag svc).2.disk = svc.disk := by
  unfold downloadAndUnpack
  split
  · exact ⟨rfl, rfl⟩
  split
  · exact ⟨rfl, rfl⟩
  cases env.download tag with
  | netFail => exact ⟨rfl, rfl⟩
  | httpFail => exact ⟨rfl, rfl⟩
  | bodyFail => exact ⟨rfl, rfl⟩
  | zipFail => exact ⟨rfl, rfl⟩
  | extractFail d => cases d <;> exact ⟨rfl, rfl⟩
  | ok entries => cases hu : unzipCreatedDir entries <;> simp [dlApply, hu]

/-- C4: when the download or extraction step of `CheckAndUpdate` fails, the
operation returns that error and neither the in-memory nor the on-disk
version field changes — the version is assigned and saved only after
`downloadAndUnpack` succeeds. -/
theorem claim_C4 (env : Env) (svc : Svc) (t msg : Str)
    (h1 : env.latestTagR = .ok t)
    (h2 : ¬(svc.config.version = t ∧ t ≠ []))
    (h3 : (downloadAndUnpack env t svc).1 = .error msg) :
    (checkAndUpdate env svc).1 = .error msg
    ∧ (checkAndUpdate env svc).2.config.version = svc.config.version
    ∧ (checkAndUpdate env svc).2.disk.version = svc.disk.version := by
  have hcu : checkAndUpdate env svc = (.error msg, (downloadAndUnpack env t svc).2) := by
    unfold checkAndUpdate
    rw [h1]
    simp only [cauWith]
    rw [if_neg h2, h3]
    rfl
  rw [hcu]
  exact ⟨rfl,
    congrArg Config.version (downloadAndUnpack_config_disk env t svc).1,
    congrArg Config.version (downloadAndUnpack_config_disk env t svc).2⟩

def env4 : Env := { env0 with latestTagR := .ok (str "v2") }

/-- Witness for C4: the network download of `v2` fails, the recorded
version `v1` survives in memory and on disk. -/
theorem claim_C4_witness :
    (checkAndUpdate env4 svc3).1 = .error (str "request failed")
    ∧ (checkAndUpdate env4 svc3).2.config.version = svc3.config.version
    ∧ (checkAndUpdate env4 svc3).2.disk.version = svc3.disk.version :=
  claim_C4 env4 svc3 (str "v2") (str "request failed") rfl (by decide) rfl

/-- C5 (amended): when a directory for the tag already exists the call is a
success that performs no network request and leaves the state untouched;
and a repeated call after a successful one is a no-op success provided the
first success actually created the tag directory — which happens exactly
when the archive held at least one entry.  (The original claim fails for
an empty archive: extraction then creates no directory and the second call
repeats the download, see the counterexample.) -/
theorem claim_C5 (env : Env) (tag : Str) (svc : Svc) :
    (tag ≠ [] → tag ∈ svc.releaseDirs → downloadAndUnpack env tag svc = (.ok (), svc))
  ∧ (∀ svc', downloadAndUnpack env tag svc = (.ok (), svc') →
      (∀ entries, env.download tag = .ok entries → entries ≠ []) →
      downloadAndUnpack env tag svc' = (.ok (), svc')) := by
  constructor
  · intro h1 h2
    unfold downloadAndUnpack
    rw [if_neg h1, if_pos h2]
  · intro svc' hok hne
    by_cases h1 : tag = []
    · rw [h1] at hok
      unfold downloadAndUnpack at hok
      simp at hok
    · by_cases h2 : tag ∈ svc.releaseDirs
      · have hsv : svc = svc' := by
          unfold downloadAndUnpack at hok
          rw [if_neg h1, if_pos h2] at hok
          exact congrArg Prod.snd hok
        unfold downloadAndUnpack
        rw [if_neg h1, if_pos (hsv ▸ h2)]
      · unfold downloadAndUnpack at hok
        rw [if_neg h1, if_neg h2] at hok
        cases hdl : env.download tag with
        | netFail => rw [hdl] at hok; simp [dlApply] at hok
        | httpFail => rw [hdl] at hok; simp [dlApply] at hok
        | bodyFail => rw [hdl] at hok; simp [dlApply] at hok
        | zipFail => rw [hdl] at hok; simp [dlApply] at hok
        | extractFail d => rw [hdl] at hok; simp [dlApply] at hok
        | ok entries =>
          rw [hdl] at hok
          have hent : entries ≠ [] := hne entries hdl
          have hcr : unzipCreatedDir entries = true := by
            unfold unzipCreatedDir
            simp [hent]
          simp only [dlApply, hcr, if_true] at hok
          have hsv : tag ∈ svc'.releaseDirs := by
            have hA := congrArg Prod.snd hok
            dsimp only at hA
            rw [← hA]
            exact List.mem_cons_self _ _
          unfold downloadAndUnpack
          rw [if_neg h1, if_pos hsv]

def env5 : Env := { env0 with download := fun _ => .ok [] }

def svc5 : Svc :=
  { releasesDir := str "R", config := cfg0, disk := cfg0, releaseDirs := [], downloads := 0 }

/-- Counterexample to C5 as stated: with an empty archive the first call
succeeds yet creates no tag directory, so the second call performs the
network/extraction work again — the download counter reaches 2, not 1. -/
theorem claim_C5_counterexample :
    (downloadAndUnpack env5 (str "v1") svc5).1 = .ok ()
    ∧ (downloadAndUnpack env5 (str "v1")
        (downloadAndUnpack env5 (str "v1") svc5).2).2.downloads = 2 :=
  ⟨rfl, rfl⟩

def env5w : Env :=
  { env0 with download := fun _ => .ok [{ name := str "general1.bat", isDir := false }] }

/-- Witness for C5: with a one-entry archive the second call after a
successful download is a no-op success. -/
theorem claim_C5_witness :
    downloadAndUnpack env5w (str "v1") (downloadAndUnpack env5w (str "v1") svc5).2
      = (.ok (), (downloadAndUnpack env5w (str "v1") svc5).2) :=
  (claim_C5 env5w (str "v1") svc5).2 (downloadAndUnpack env5w (str "v1") svc5).2 rfl
    (fun entries h => by injection h with h2; rw [← h2]; simp)

/-- C7: after every `StopRunning` call the tracked running entry is absent,
no error is surfaced from the termination mechanisms (the returned error
is always `nil`), and when a process was tracked and the write succeeds the
cleared entry is persisted to disk; the call is safe when nothing runs. -/
theorem claim_C7 (env : Env) (svc : Svc) :
    (stopRunning env svc).1 = .ok ()
    ∧ (stopRunning env svc).2.config.running = none
    ∧ (svc.config.running ≠ none → env.saveOk = true →
        (stopRunning env svc).2.disk.running = none) := by
  unfold stopRunning
  cases hr : svc.config.running with
  | none => exact ⟨rfl, hr, fun hne _ => absurd rfl hne⟩
  | some r =>
    refine ⟨rfl, ?_, ?_⟩
    · show (goSave env { svc with config := { svc.config with running := none } }).config.running
          = none
      rw [goSave_config]
    · intro _ hs
      show (goSave env { svc with config := { svc.config with running := none } }).disk.running
          = none
      rw [goSave_disk env _ hs]

def svc7 : Svc :=
  { releasesDir := str "R"
    config := { cfg0 with running := some { file := str "g.bat", pid := 7, startedAt := 0 } }
    disk := cfg0, releaseDirs := [], downloads := 0 }

/-- Witness for C7: stopping a tracked process clears and persists the
entry and reports no error. -/
theorem claim_C7_witness :
    (stopRunning env0 svc7).1 = .ok ()
    ∧ (stopRunning env0 svc7).2.config.running = none
    ∧ (stopRunning env0 svc7).2.disk.running = none := by
  obtain ⟨a, b, c⟩ := claim_C7 env0 svc7
  exact ⟨a, b, c (by decide) rfl⟩

theorem strLt_asymm : ∀ a b : Str, strLt a b = true → strLt b a = false := by
  intro a
  induction a with
  | nil =>
    intro b h
    cases b with
    | nil => simp [strLt] at h
    | cons c cs => simp [strLt]
  | cons x xs ih =>
    intro b h
    cases b with
    | nil => simp [strLt] at h
    | cons y ys =>
      unfold strLt at h ⊢
      split at h
      · rename_i h1
        rw [if_neg (by omega : ¬ y.toNat < x.toNat), if_pos h1]
      · split at h
        · exact absurd h (by simp)
        · rename_i h1 h2
          rw [if_neg h2, if_neg h1]
          exact ih ys h

theorem strLt_trans : ∀ a b c : Str, strLt a b = true → strLt b c = true → strLt a c = true := by
  intro a
  induction a with
  | nil =>
    intro b c hab hbc
    cases b with
    | nil => simp [strLt] at hab
    | cons y ys =>
      cases c with
      | nil => simp [strLt] at hbc
      | cons z zs => simp [strLt]
  | cons x xs ih =>
    intro b c hab hbc
    cases b with
    | nil => simp [strLt] at hab
    | cons y ys =>
      cases c with
      | nil => simp [strLt] at hbc
      | cons z zs =>
        unfold strLt at hab hbc ⊢
        split at hab
        · rename_i h1
          split at hbc
          · rename_i h2
            rw [if_pos (by omega : x.toNat < z.toNat)]
          · split at hbc
            · exact absurd hbc (by simp)
            · rename_i h2 h3
              rw [if_pos (by omega : x.toNat < z.toNat)]
        · split at hab
          · exact absurd hab (by simp)
          · rename_i h1 h2
            split at hbc
            · rename_i h3
              rw [if_pos (by omega : x.toNat < z.toNat)]
            · split at hbc
              · exact absurd hbc (by simp)
              · rename_i h3 h4
                rw [if_neg (by omega : ¬ x.toNat < z.toNat),
                  if_neg (by omega : ¬ z.toNat < x.toNat)]
                exact ih ys zs hab hbc

theorem mem_insertByLt {α : Type} (lt : α → α → Bool) (x a : α) (l : List α) :
    a ∈ insertByLt lt x l ↔ a = x ∨ a ∈ l := by
  induction l with
  | nil => simp [insertByLt]
  | cons y ys ih =>
    unfold insertByLt
    split
    · simp [List.mem_cons]
    · simp only [List.mem_cons, ih]
      tauto

theorem pairwise_insertByLt {α : Type} (lt : α → α → Bool)
    (hasym : ∀ a b, lt a b = true → lt b a = false)
    (htrans : ∀ a b c, lt a b = true → lt b c = true → lt a c = true)
    (x : α) (l : List α)
    (h : l.Pairwise (fun a b => lt b a = false)) :
    (insertByLt lt x l).Pairwise (fun a b => lt b a = false) := by
  induction l with
  | nil => exact List.pairwise_singleton _ _
  | cons y ys ih =>
    rcases List.pairwise_cons.mp h with ⟨hy, hys⟩
    unfold insertByLt
    split
    · rename_i hxy
      refine List.pairwise_cons.mpr ⟨?_, h⟩
      intro z hz
      rcases List.mem_cons.mp hz with rfl | hz'
      · exact hasym x z hxy
      · cases hzx : lt z x with
        | false => rfl
        | true =>
          have hzy : lt z y = true := htrans z x y hzx hxy
          rw [hy z hz'] at hzy
          exact absurd hzy (by simp)
    · rename_i hxy
      refine List.pairwise_cons.mpr ⟨?_, ih hys⟩
      intro z hz
      rcases (mem_insertByLt lt x z ys).mp hz with rfl | hz'
      · cases hxyb : lt z y with
        | false => rfl
        | true => exact absurd hxyb hxy
      · exact hy z hz'

theorem mem_sortByLt {α : Type} (lt : α → α → Bool) (a : α) (l : List α) :
    a ∈ sortByLt lt l ↔ a ∈ l := by
  induction l with
  | nil => simp [sortByLt]
  | cons y ys ih =>
    unfold sortByLt at ih ⊢
    rw [List.foldr_cons, mem_insertByLt, ih, List.mem_cons]

theorem pairwise_sortByLt {α : Type} (lt : α → α → Bool)
    (hasym : ∀ a b, lt a b = true → lt b a = false)
    (htrans : ∀ a b c, lt a b = true → lt b c = true → lt a c = true)
    (l : List α) :
    (sortByLt lt l).Pairwise (fun a b => lt b a = false) := by
  induction l with
  | nil => exact List.Pairwise.nil
  | cons y ys ih => exact pairwise_insertByLt lt hasym htrans y (sortByLt lt ys) ih

/-- The selection predicate of `listStrategies`, written as the spec words
it: a regular file whose lower-cased name does not begin with `service`,
ends in `.bat` and begins with `general`. -/
def keepName (e : FileEntry) : Prop :=
  e.isDir = false
  ∧ (str "service").isPrefixOf (lowerStr e.name) = false
  ∧ (str ".bat").isSuffixOf (lowerStr e.name) = true
  ∧ (str "general").isPrefixOf (lowerStr e.name) = true

theorem strategyOfEntry_some_iff (current : Str) (e : FileEntry) :
    (strategyOfEntry current e).isSome = true ↔ keepName e := by
  unfold strategyOfEntry keepName
  cases hd : e.isDir <;>
    cases hs : (str "service").isPrefixOf (lowerStr e.name) <;>
      cases hb : (str ".bat").isSuffixOf (lowerStr e.name) <;>
        cases hg : (str "general").isPrefixOf (lowerStr e.name) <;>
          simp [hd, hs, hb, hg]

theorem strategyOfEntry_name (current : Str) (e : FileEntry) (st : Strategy)
    (h : strategyOfEntry current e = some st) : st.name = e.name := by
  unfold strategyOfEntry at h
  split at h
  · exact absurd h (by simp)
  · split at h
    · simp only [Option.some.injEq] at h
      rw [← h]
    · exact absurd h (by simp)

theorem currentReleasePath_eq_nil_iff (svc : Svc) :
    currentReleasePath svc = [] ↔ svc.config.version = [] := by
  unfold currentReleasePath
  split
  · rename_i h; simp [h]
  · rename_i h
    constructor
    · intro hj; exact absurd hj (by simp [pathJoin])
    · intro hv; exact absurd hv h

def entries6 : List FileEntry :=
  [ { name := str "general1.bat", isDir := false, modTime := 0, content := [] }
  , { name := str "general2.BAT", isDir := false, modTime := 0, content := [] }
  , { name := str "service.bat", isDir := false, modTime := 0, content := [] }
  , { name := str "readme.txt", isDir := false, modTime := 0, content := [] } ]

def env6 : Env := { env0 with releaseDirR := some entries6 }

/-- C6: `listStrategies` returns the empty list (not an error) when no
release is active; on a successful listing its result holds exactly the
names of the non-directory entries that pass the `general*`/`.bat`/not
`service*` filter (case-insensitively) and is sorted by name; and on the
spec's scenario directory it returns `general1.bat, general2.BAT`. -/
theorem claim_C6 (env : Env) (svc : Svc) :
    (svc.config.version = [] → listStrategies env svc = .ok [])
  ∧ (∀ (entries : List FileEntry) (l : List Strategy),
      env.releaseDirR = some entries → svc.config.version ≠ [] →
      listStrategies env svc = .ok l →
      ((∀ n : Str, (∃ st ∈ l, st.name = n) ↔ (∃ e ∈ entries, e.name = n ∧ keepName e))
        ∧ l.Pairwise (fun a b => strLt b.name a.name = false)))
  ∧ ((listStrategies env6 svc3).map (fun l => l.map Strategy.name)
      = .ok [str "general1.bat", str "general2.BAT"]) := by
  refine ⟨?_, ?_, rfl⟩
  · intro hv
    unfold listStrategies
    rw [if_pos ((currentReleasePath_eq_nil_iff svc).mpr hv)]
  · intro entries l hdir hv hok
    unfold listStrategies at hok
    rw [if_neg (fun hc => hv ((currentReleasePath_eq_nil_iff svc).mp hc)), hdir] at hok
    simp only [listWith, Except.ok.injEq] at hok
    subst hok
    constructor
    · intro n
      constructor
      · rintro ⟨st, hst, rfl⟩
        have hmem := (mem_sortByLt _ st _).mp hst
        rcases List.mem_filterMap.mp hmem with ⟨e, he, hfe⟩
        refine ⟨e, he, (strategyOfEntry_name _ e st hfe).symm, ?_⟩
        exact (strategyOfEntry_some_iff (currentReleasePath svc) e).mp (by rw [hfe]; rfl)
      · rintro ⟨e, he, hn, hkeep⟩
        have hsome := (strategyOfEntry_some_iff (currentReleasePath svc) e).mpr hkeep
        rcases Option.isSome_iff_exists.mp hsome with ⟨st, hst⟩
        refine ⟨st, ?_, ?_⟩
        · exact (mem_sortByLt _ st _).mpr (List.mem_filterMap.mpr ⟨e, he, hst⟩)
        · rw [strategyOfEntry_name _ e st hst, hn]
    · exact pairwise_sortByLt _ (fun a b => strLt_asymm a.name b.name)
        (fun a b c => strLt_trans a.name b.name c.name) _

def strat6a : Strategy :=
  { name := str "general1.bat", file := str "R\\v1\\general1.bat"
    result := zeroResult, best := false }

def strat6b : Strategy :=
  { name := str "general2.BAT", file := str "R\\v1\\general2.BAT"
    result := zeroResult, best := false }

/-- Witness for C6 on the scenario directory. -/
theorem claim_C6_witness :
    (∀ n : Str, (∃ st ∈ [strat6a, strat6b], st.name = n) ↔
        (∃ e ∈ entries6, e.name = n ∧ keepName e))
    ∧ List.Pairwise (fun a b => strLt b.name a.name = false) [strat6a, strat6b] :=
  (claim_C6 env6 svc3).2.1 entries6 [strat6a, strat6b] rfl (by decide) rfl

theorem stopRunning_clears (env : Env) (svc : Svc) :
    (stopRunning env svc).2.config.running = none := by
  unfold stopRunning
  cases hr : svc.config.running with
  | none => exact hr
  | some r =>
    show (goSave env { svc with config := { svc.config with running := none } }).config.running
        = none
    rw [goSave_config]

theorem stopRunning_version (env : Env) (svc : Svc) :
    (stopRunning env svc).2.config.version = svc.config.version := by
  unfold stopRunning
  cases svc.config.running with
  | none => rfl
  | some r =>
    show (goSave env { svc with config := { svc.config with running := none } }).config.version
        = svc.config.version
    rw [goSave_config]

theorem clearStale_running_none (env : Env) (svc : Svc) (h : svc.config.running = none) :
    clearStaleRunning env svc = svc := by
  unfold clearStaleRunning
  rw [h]
  rfl

theorem stateRead_running_none (env : Env) (svc : Svc) (h : svc.config.running = none) :
    (stateRead env svc).2.config.running = none := by
  rw [stateRead_snd]
  split
  · exact h
  · rw [clearStale_running_none env (rehydrate env svc) ((rehydrate_frame env svc).2.1.trans h),
      (rehydrate_frame env svc).2.1]
    exact h

/-- C8 (amended): when the launch step completes but the captured process
identifier is not a positive integer, `RunStrategy` does not fail — it
returns a state snapshot successfully and simply records no `RunningInfo`
(the tracked entry stays absent).  The original claim that it fails with a
`LaunchError` is false, see the counterexample. -/
theorem claim_C8 (env : Env) (svc : Svc) (file output : Str)
    (hv : svc.config.version ≠ [])
    (hex : env.fileExistsR (resolvedLaunchPath env (stopRunning env svc).2 file) = true)
    (hla : env.launchR (resolvedLaunchPath env (stopRunning env svc).2 file) = .ok output)
    (hpid : goAtoi (goTrim output) ≤ 0) :
    (∃ st, (runStrategy env file svc).1 = .ok st)
    ∧ (runStrategy env file svc).2.config.running = none := by
  have hcur : ¬ currentReleasePath (stopRunning env svc).2 = [] := by
    intro hc
    exact hv ((stopRunning_version env svc) ▸ (currentReleasePath_eq_nil_iff _).mp hc)
  have hrun1 : runStrategy env file svc
      = runStrategy.runRecord env (resolvedLaunchPath env (stopRunning env svc).2 file)
          (goAtoi (goTrim output)) (stopRunning env svc).2 := by
    unfold runStrategy runStrategy.runAfterStop
    rw [if_neg hcur]
    simp only [hex, Bool.not_true]
    rw [if_neg (by simp), hla]
    rfl
  have hX : (runStrategy.runSaveLast env (resolvedLaunchPath env (stopRunning env svc).2 file)
      (runStrategy.runSavePid env (resolvedLaunchPath env (stopRunning env svc).2 file)
        (goAtoi (goTrim output)) (stopRunning env svc).2)).config.running = none := by
    unfold runStrategy.runSaveLast runStrategy.runSavePid
    rw [if_neg (by omega : ¬ (0 : Int) < goAtoi (goTrim output)), goSave_config]
    exact stopRunning_clears env svc
  rw [hrun1]
  exact ⟨⟨_, rfl⟩, stateRead_running_none env _ hX⟩

def env8 : Env :=
  { env0 with fileExistsR := fun _ => true, launchR := fun _ => .ok (str "0") }

def isOkDTO : Except Str StateDTO → Bool
  | .ok _ => true
  | .error _ => false

/-- Counterexample to C8 as stated: the launch completes, the captured pid
parses to 0 (not positive), yet `RunStrategy` returns success — it does not
fail with a `LaunchError` — and leaves no tracked entry. -/
theorem claim_C8_counterexample :
    goAtoi (goTrim (str "0")) = 0
    ∧ isOkDTO (runStrategy env8 (str "general1.bat") svc3).1 = true
    ∧ (runStrategy env8 (str "general1.bat") svc3).2.config.running = none :=
  ⟨rfl, rfl, rfl⟩

/-- Witness for C8 (amended) at the counterexample input. -/
theorem claim_C8_witness :
    (∃ st, (runStrategy env8 (str "general1.bat") svc3).1 = .ok st)
    ∧ (runStrategy env8 (str "general1.bat") svc3).2.config.running = none :=
  claim_C8 env8 svc3 (str "general1.bat") (str "0") (by decide) rfl rfl (by decide)

/-- Counterexample to C9 as stated: the stale-PID validation is guarded by
`current != ""`, so a persisted config with an empty version and a dead
tracked pid is NOT healed by a state read. -/
theorem claim_C9_counterexample :
    svc7.config.version = []
    ∧ svc7.config.running = some { file := str "g.bat", pid := 7, startedAt := 0 }
    ∧ isPIDRunning env0 7 = false
    ∧ (stateRead env0 svc7).2.config.running
        = some { file := str "g.bat", pid := 7, startedAt := 0 } :=
  ⟨rfl, rfl, rfl, rfl⟩

/-- C9 (amended): for every persisted config with a non-empty version (an
active release path) holding a `RunningInfo` whose pid is not alive, the
next state read clears the entry and, when the write succeeds, persists the
cleared config; with an empty version the read leaves the stale entry in
place (see the counterexample). -/
theorem claim_C9 (env : Env) (svc : Svc) (r : RunningInfo)
    (hv : svc.config.version ≠ [])
    (hr : svc.config.running = some r)
    (hdead : isPIDRunning env r.pid = false) :
    (stateRead env svc).2.config.running = none
    ∧ (env.saveOk = true → (stateRead env svc).2.disk.running = none) := by
  have hcur : ¬ currentReleasePath svc = [] :=
    fun hc => hv ((currentReleasePath_eq_nil_iff svc).mp hc)
  rw [stateRead_snd, if_neg hcur]
  have hr' : (rehydrate env svc).config.running = some r := by
    rw [(rehydrate_frame env svc).2.1]; exact hr
  unfold clearStaleRunning
  rw [hr']
  simp only [clearWith, hdead]
  rw [if_neg (by simp)]
  constructor
  · rw [goSave_config]
  · intro hs
    rw [goSave_disk env _ hs]

def svc9 : Svc := { svc7 with config := { svc7.config with version := str "v1" } }

/-- Witness for C9: with version `v1` recorded and pid 7 дead, a read
clears and persists the entry. -/
theorem claim_C9_witness :
    (stateRead env0 svc9).2.config.running = none
    ∧ (stateRead env0 svc9).2.disk.running = none := by
  obtain ⟨a, b⟩ := claim_C9 env0 svc9 { file := str "g.bat", pid := 7, startedAt := 0 }
    (by decide) rfl rfl
  exact ⟨a, b rfl⟩

theorem parseAnalytics_ok_pos (content : Str) (pr : ParsedResults)
    (h : parseAnalytics content = .ok pr) : 0 < pr.results.length := by
  unfold parseAnalytics at h
  split at h
  · exact absurd h (by simp)
  · rename_i hlen
    cases h
    exact Nat.pos_of_ne_zero hlen

theorem parseLatestResult_ok_pos (env : Env) (pr : ParsedResults)
    (h : parseLatestResult env = .ok pr) : 0 < pr.results.length := by
  unfold parseLatestResult at h
  cases hdir : env.resultsDirR with
  | none => rw [hdir] at h; simp [plrEntries] at h
  | some entries =>
    rw [hdir] at h
    simp only [plrEntries] at h
    cases hpick : pickLatest entries with
    | none => rw [hpick] at h; simp [plrPick] at h
    | some e =>
      rw [hpick] at h
      simp only [plrPick] at h
      exact parseAnalytics_ok_pos e.content pr h

theorem clearStale_disk_fields (env : Env) (svc : Svc)
    (ht : svc.disk.testResults = svc.config.testResults)
    (hb : svc.disk.bestStrategy = svc.config.bestStrategy) :
    (clearStaleRunning env svc).disk.testResults = svc.config.testResults
    ∧ (clearStaleRunning env svc).disk.bestStrategy = svc.config.bestStrategy := by
  unfold clearStaleRunning
  cases svc.config.running with
  | none => exact ⟨ht, hb⟩
  | some r =>
    simp only [clearWith]
    split
    · exact ⟨ht, hb⟩
    · constructor
      · show (goSave env { svc with config := { svc.config with running := none } }).disk.testResults
            = svc.config.testResults
        unfold goSave
        split
        · rfl
        · exact ht
      · show (goSave env { svc with config := { svc.config with running := none } }).disk.bestStrategy
            = svc.config.bestStrategy
        unfold goSave
        split
        · rfl
        · exact hb

/-- C10: a state read is not free of persistent side effects — whenever a
release path is set and the most recently modified test-results file parses
to a (necessarily non-empty) result map, `State()` overwrites the in-memory
`testResults`/`bestStrategy` with the parsed values and, when the write
succeeds, persists them, without any test run having been invoked. -/
theorem claim_C10 (env : Env) (svc : Svc) (pr : ParsedResults)
    (hv : svc.config.version ≠ [])
    (hp : parseLatestResult env = .ok pr) :
    (stateRead env svc).2.config.testResults = pr.results
    ∧ (stateRead env svc).2.config.bestStrategy = pr.best
    ∧ (env.saveOk = true →
        (stateRead env svc).2.disk.testResults = pr.results
        ∧ (stateRead env svc).2.disk.bestStrategy = pr.best) := by
  have hcur : ¬ currentReleasePath svc = [] :=
    fun hc => hv ((currentReleasePath_eq_nil_iff svc).mp hc)
  rw [stateRead_snd, if_neg hcur]
  have hre : rehydrate env svc
      = goSave env { svc with config :=
          { svc.config with testResults := pr.results, bestStrategy := pr.best } } := by
    unfold rehydrate
    rw [hp]
    simp only [rehydrateWith]
    rw [if_pos (parseLatestResult_ok_pos env pr hp)]
  rw [hre]
  refine ⟨?_, ?_, ?_⟩
  · rw [(clearStale_frame env _).2.1, goSave_config]
  · rw [(clearStale_frame env _).2.2.1, goSave_config]
  · intro hs
    have ht : (goSave env { svc with config :=
        { svc.config with testResults := pr.results, bestStrategy := pr.best } }).disk.testResults
        = (goSave env { svc with config :=
        { svc.config with testResults := pr.results, bestStrategy := pr.best } }).config.testResults := by
      rw [goSave_disk env _ hs, goSave_config]
    have hb : (goSave env { svc with config :=
        { svc.config with testResults := pr.results, bestStrategy := pr.best } }).disk.bestStrategy
        = (goSave env { svc with config :=
        { svc.config with testResults := pr.results, bestStrategy := pr.best } }).config.bestStrategy := by
      rw [goSave_disk env _ hs, goSave_config]
    have hcd := clearStale_disk_fields env
      (goSave env { svc with config :=
        { svc.config with testResults := pr.results, bestStrategy := pr.best } }) ht hb
    constructor
    · rw [hcd.1, goSave_config]
    · rw [hcd.2, goSave_config]

def fileA : FileEntry :=
  { name := str "test_results_1.txt", isDir := false, modTime := 5, content := demoContent }

def env10 : Env := { env0 with resultsDirR := some [fileA] }

/-- Witness for C10: a bare state read replaces the persisted results with
the ones parsed from the newest report file. -/
theorem claim_C10_witness :
    (stateRead env10 svc3).2.config.testResults = demoParsed.results
    ∧ (stateRead env10 svc3).2.config.bestStrategy = demoParsed.best
    ∧ ((stateRead env10 svc3).2.disk.testResults = demoParsed.results
        ∧ (stateRead env10 svc3).2.disk.bestStrategy = demoParsed.best) := by
  obtain ⟨a, b, c⟩ := claim_C10 env10 svc3 demoParsed (by decide) rfl
  exact ⟨a, b, c rfl⟩

end ZapretUI
